import Mathlib

set_option maxRecDepth 8000

/-!
Shallow embedding of src/lib/pip.js (serverless-python-requirements):
manifest filtering, docker path translation, spawn-result classification,
docker command construction, the post-install hook command, and the
per-function dedup orchestration, with theorems checking the specification.
Strings are modelled as their character sequences (List Char) where the
JavaScript code manipulates string contents character by character.
-/

namespace PipSpec

/-- Delimiter class of the regex [=<> \t] used in generateRequirementsFile
(src/lib/pip.js line 169) to cut a requirement line at the first
comparator, space or tab. -/
def isReqDelim (c : Char) : Bool :=
  c == '=' || c == '<' || c == '>' || c == ' ' || c == '\t'

/-- Whitespace class of JavaScript String.prototype.trim (ASCII part). -/
def isJsWhitespace (c : Char) : Bool :=
  c == ' ' || c == '\t' || c == '\n' || c == '\r' || c == '\x0b' || c == '\x0c'

/-- JavaScript String.prototype.trim: strip whitespace from both ends. -/
def trimWS (l : List Char) : List Char :=
  ((l.dropWhile isJsWhitespace).reverse.dropWhile isJsWhitespace).reverse

/-- JavaScript String.prototype.split on the character class [=<> \t]:
cut the string at every delimiter occurrence (the accumulator holds the
current piece reversed). -/
def jsSplitDelim : List Char → List Char → List (List Char)
  | [], acc => [acc.reverse]
  | c :: rest, acc =>
    if isReqDelim c then acc.reverse :: jsSplitDelim rest []
    else jsSplitDelim rest (c :: acc)

/-- Leading package name of a requirement line as computed by the code:
req.split(of the delimiter class)[0].trim() (src/lib/pip.js line 169). -/
def reqName (req : List Char) : List Char :=
  trimWS ((jsSplitDelim req []).headD [])

/-- Drop one carriage return from the head of the reversed accumulator;
used when a newline is consumed so that a CRLF pair counts as one
terminator, as the regex matching one optional CR then LF does. -/
def stripTrailingCR (acc : List Char) : List Char :=
  if acc.head? = some '\r' then acc.tail else acc

/-- JavaScript String.prototype.split on the regex matching an optional CR
followed by LF (src/lib/pip.js line 167): every LF ends a line, and a CR
immediately before a consumed LF is consumed with it. -/
def splitCRLFAux : List Char → List Char → List (List Char)
  | [], acc => [acc.reverse]
  | c :: rest, acc =>
    if c = '\n' then (stripTrailingCR acc).reverse :: splitCRLFAux rest []
    else splitCRLFAux rest (c :: acc)

/-- Split file contents into lines the way the code reads a manifest. -/
def splitLinesCRLF (s : List Char) : List (List Char) :=
  splitCRLFAux s []

/-- Split on LF only; used to name the lines of a written (LF-joined)
manifest when stating what the destination file contains. -/
def splitLFAux : List Char → List Char → List (List Char)
  | [], acc => [acc.reverse]
  | c :: rest, acc =>
    if c = '\n' then acc.reverse :: splitLFAux rest []
    else splitLFAux rest (c :: acc)

/-- Lines of an LF-terminated text. -/
def splitLF (s : List Char) : List (List Char) :=
  splitLFAux s []

/-- Array.prototype.join with the LF separator (src/lib/pip.js line 171). -/
def joinLF : List (List Char) → List Char
  | [] => []
  | [l] => l
  | l :: l2 :: ls => l ++ '\n' :: joinLF (l2 :: ls)

/-- Predicate of the filter in generateRequirementsFile: keep a line when
its leading package name is not in the noDeploy set (exact, case-sensitive
membership, as a JavaScript Set of strings). -/
def keepReq (noDeploy : List (List Char)) (req : List Char) : Bool :=
  ! noDeploy.contains (reqName req)

/-- Line-level filtering of a manifest given as its sequence of lines
(src/lib/pip.js lines 168-170). -/
def filterRequirements (noDeploy : List (List Char)) (requirements : List (List Char)) :
    List (List Char) :=
  requirements.filter (keepReq noDeploy)

/-- Full content transformation of generateRequirementsFile
(src/lib/pip.js lines 165-172): read, split into lines, filter, join
with LF, write. -/
def generateRequirementsFile (noDeploy : List (List Char)) (source : List Char) : List Char :=
  joinLF (filterRequirements noDeploy (splitLinesCRLF source))

/-- Modelled from the spec: the leading package name of a line is the
substring before the first occurrence of any of the characters
equals, less-than, greater-than, space, tab, trimmed. Stated with
takeWhile so it can be compared with the split-based code path. -/
def specLeadingName (req : List Char) : List Char :=
  trimWS (req.takeWhile (fun c => ! isReqDelim c))

/-- JavaScript String.prototype.replace with a one-character string
pattern: rewrite only the first occurrence. -/
def jsReplaceFirst (sep repl : Char) : List Char → List Char
  | [] => []
  | c :: rest =>
    if c = sep then repl :: rest
    else c :: jsReplaceFirst sep repl rest

/-- Path translation dockerPathForWin (src/lib/pip.js lines 153-158):
on the win32 platform with dockerizePip enabled, replace the first
backslash with a forward slash; otherwise return the path unchanged. -/
def dockerPathForWin (platform : String) (dockerizePip : Bool) (p : List Char) : List Char :=
  if platform = "win32" && dockerizePip then jsReplaceFirst '\\' '/' p
  else p

/-- Modelled from the spec: a POSIX-like host is one whose path separator
is already the POSIX one, that is, every platform other than win32
(the only platform the PathTranslator treats as non-POSIX). -/
def posixLikePlatform (p : String) : Bool :=
  !(p == "win32")

/-- Error value attached by spawnSync when the child process could not be
started; code is the system error code string (for example ENOENT). -/
structure SpawnFailure where
  code : Option String
  message : String
  deriving DecidableEq

/-- Result record of spawnSync as read by executeCommand: an optional
start-failure error, the exit status (none when the process never ran or
was killed by a signal), and the captured output streams. -/
structure SpawnResult where
  error : Option SpawnFailure
  status : Option Int
  stdout : String
  stderr : String
  deriving DecidableEq

/-- Classified outcome of one executeCommand run. -/
inductive ExecOutcome where
  | ok
  | toolMissing (message : String)
  | spawnError (e : SpawnFailure)
  | nonZeroExit (message : String)
  deriving DecidableEq

/-- Message thrown when docker is missing (src/lib/pip.js line 89). -/
def dockerNotFoundMsg : String := "docker not found! Please install it."

/-- Message thrown when the python binary is missing
(src/lib/pip.js line 91). -/
def pythonNotFoundMsg (pythonBin : String) : String :=
  pythonBin ++ " not found! Try the pythonBin option."

/-- Outcome classification of executeCommand (src/lib/pip.js lines 86-98):
a start failure with code ENOENT becomes toolMissing with a message chosen
by dockerizePip; any other start failure is rethrown unchanged; a run that
did not exit with status 0 throws the captured standard error; otherwise
the call returns normally. -/
def classifyExecution (dockerizePip : Bool) (pythonBin : String) (res : SpawnResult) :
    ExecOutcome :=
  match res.error with
  | some e =>
    if e.code = some "ENOENT" then
      if dockerizePip then ExecOutcome.toolMissing dockerNotFoundMsg
      else ExecOutcome.toolMissing (pythonNotFoundMsg pythonBin)
    else ExecOutcome.spawnError e
  | none =>
    if res.status = some 0 then ExecOutcome.ok
    else ExecOutcome.nonZeroExit res.stderr

/-- Host environment read by executeCommand when building the docker
command line: the platform, the invoking numeric user id, the HOME and
SSH_AUTH_SOCK environment variables, and the external helpers getBindPath,
getDockerUid (from ./docker) treated as black boxes. -/
structure DockerEnv where
  platform : String
  uid : Nat
  home : String
  sshAuthSock : String
  getBindPath : String → String
  getDockerUid : String → String
  buildImage : String → String

/-- Options consumed by executeCommand. -/
structure PipOptions where
  dockerizePip : Bool
  dockerFile : Option String
  dockerImage : String
  dockerSsh : Bool
  pythonBin : String

/-- Image resolution (src/lib/pip.js lines 30-35): build from a
Dockerfile when one is configured, else use the configured image. -/
def resolveDockerImage (env : DockerEnv) (opts : PipOptions) : String :=
  match opts.dockerFile with
  | some df => env.buildImage df
  | none => opts.dockerImage

/-- Base docker run arguments (src/lib/pip.js lines 41-51): run, remove on
exit, bind-mount the service path, and the optional ssh mounts. -/
def dockerBaseOptions (env : DockerEnv) (opts : PipOptions) (bindPath : String) :
    List String :=
  ["run", "--rm", "-v", bindPath ++ ":/var/task:z"] ++
    (if opts.dockerSsh then
      ["-v", env.home ++ "/.ssh/id_rsa:/root/.ssh/id_rsa:z",
       "-v", env.home ++ "/.ssh/known_hosts:/root/.ssh/known_hosts:z",
       "-v", env.sshAuthSock ++ ":/tmp/ssh_sock:z",
       "-e", "SSH_AUTH_SOCK=/tmp/ssh_sock"]
    else [])

/-- User-mapping arguments (src/lib/pip.js lines 52-64): on linux pass the
invoking user id, otherwise pass the id resolved by getDockerUid on the
bind path. -/
def dockerUserOptions (env : DockerEnv) (bindPath : String) : List String :=
  if env.platform = "linux" then ["-u", toString env.uid]
  else ["-u", env.getDockerUid bindPath]

/-- Trailing docker run arguments (src/lib/pip.js lines 65-71): the image,
then the command either shell-wrapped (useShellAlways) or spliced in. -/
def dockerTailOptions (env : DockerEnv) (opts : PipOptions)
    (commandAndArguments : List String) (useShellAlways : Bool) : List String :=
  [resolveDockerImage env opts] ++
    (if useShellAlways then
      ["/bin/bash", "-c", "\x27" ++ String.intercalate " " commandAndArguments ++ "\x27"]
    else commandAndArguments)

/-- Command and argument vector prepared by executeCommand
(src/lib/pip.js lines 25-75): with dockerizePip the docker executable with
the assembled run options, otherwise the head of the vector as the
command and its tail as the arguments. -/
def executeCmdLine (env : DockerEnv) (opts : PipOptions) (servicePath : String)
    (commandAndArguments : List String) (useShellAlways : Bool) : String × List String :=
  if opts.dockerizePip then
    let bindPath := env.getBindPath servicePath
    ("docker",
      dockerBaseOptions env opts bindPath ++ dockerUserOptions env bindPath ++
        dockerTailOptions env opts commandAndArguments useShellAlways)
  else (commandAndArguments.headD "", commandAndArguments.tail)

/-- Modelled from Node path.join on two segments, without dot-segment
normalization (not exercised by the claims): concatenate with exactly one
separator between the segments. -/
def pathJoin (a b : String) : String :=
  if a = "" then b
  else if a.endsWith "/" then a ++ b
  else a ++ "/" ++ b

/-- Argument vector built by runPostInstallScript (src/lib/pip.js lines
133-145) and handed to executeCommand: the hook command, then the
requirements output folder, then the hook arguments (defaulted to the
empty list when absent). -/
def runPostInstallScriptCmd (command : String) (cmdArgs : Option (List String))
    (targetFolder : String) : List String :=
  let targetRequirementsFolder := pathJoin targetFolder "requirements"
  let args := cmdArgs.getD []
  [command, targetRequirementsFolder] ++ args

/-- One deployment unit as read and written by installAllRequirements
(a function object of the service): the module, vendor and post-install
hook fields. -/
structure FunctionUnit where
  module : Option String
  vendor : Option String
  pipPostInstallScript : Option String
  pipPostInstallArgs : Option (List String)
  deriving DecidableEq

/-- JavaScript falsiness of the module field as tested by
the get call on line 208: absent or the empty string. -/
def moduleFalsy : Option String → Bool
  | none => true
  | some s => s == ""

/-- Module defaulting (src/lib/pip.js lines 208-210): a falsy module field
is overwritten with the dot string; the set call mutates the unit. -/
def setDefaultModule (f : FunctionUnit) : FunctionUnit :=
  if moduleFalsy f.module then { f with module := some "." } else f

/-- Module identifier a unit carries after defaulting; this is the value
the dedup list stores and compares. -/
def moduleId (f : FunctionUnit) : String :=
  (setDefaultModule f).module.getD ""

/-- Identifiers of a unit list in order. -/
def unitIds (fs : List FunctionUnit) : List String :=
  fs.map moduleId

/-- Per-unit orchestration loop of installAllRequirements
(src/lib/pip.js lines 205-239) in individually mode: walk the units,
default falsy modules, skip a unit whose identifier is already in
doneModules, otherwise install for it and record the identifier. Returns
the units as they stand after the run and the identifiers for which
installRequirements was invoked, in invocation order. -/
def installAllIndividually : List FunctionUnit → List String →
    List FunctionUnit × List String
  | [], _ => ([], [])
  | f :: fs, doneModules =>
    let g := setDefaultModule f
    let m := g.module.getD ""
    if doneModules.contains m then
      let r := installAllIndividually fs doneModules
      (g :: r.1, r.2)
    else
      let r := installAllIndividually fs (doneModules ++ [m])
      (g :: r.1, m :: r.2)

/-- First occurrences of a list of identifiers relative to an
already-seen list: the identifiers that trigger an installation. -/
def firstOccur : List String → List String → List String
  | [], _ => []
  | m :: ms, done =>
    if done.contains m then firstOccur ms done
    else m :: firstOccur ms (done ++ [m])

/-- Sample host environment for a darwin (POSIX-like, non-linux) host with
invoking user id 1000, where the ownership helper reports id 42. -/
def sampleDarwinEnv : DockerEnv :=
  ⟨"darwin", 1000, "/home/u", "/tmp/agent", fun s => s, fun _ => "42", fun _ => "built"⟩

/-- Sample host environment for a linux host with invoking user id 1000. -/
def sampleLinuxEnv : DockerEnv :=
  ⟨"linux", 1000, "/home/u", "/tmp/agent", fun s => s, fun _ => "42", fun _ => "built"⟩

/-- Sample options with container mode enabled and no Dockerfile. -/
def sampleDockerOpts : PipOptions :=
  ⟨true, none, "img", false, "python"⟩

/-- Sample options with container mode disabled. -/
def sampleNativeOpts : PipOptions :=
  ⟨false, none, "img", false, "python"⟩

theorem jsSplitDelim_headD : ∀ (l acc : List Char),
    (jsSplitDelim l acc).headD [] = acc.reverse ++ l.takeWhile (fun c => ! isReqDelim c)
  | [], acc => by simp [jsSplitDelim]
  | c :: rest, acc => by
    by_cases h : isReqDelim c = true
    · rw [jsSplitDelim.eq_def]
      simp only [if_pos h]
      simp [List.takeWhile_cons, h]
    · have hb : isReqDelim c = false := Bool.eq_false_iff.mpr h
      rw [jsSplitDelim.eq_def]
      simp only [if_neg h]
      rw [jsSplitDelim_headD rest (c :: acc)]
      simp [List.takeWhile_cons, hb]

/-- C1: for every manifest, read as its sequence of lines, and every
denied-name list, the line-level filter of generateRequirementsFile keeps
exactly the lines whose leading package name, the trimmed substring before
the first occurrence of an equals sign, angle bracket, space or tab, is
not a member of the denied set (exact, case-sensitive membership), in
their original relative order: it is List.filter with that predicate. -/
theorem c1_filter_retains_exactly (D M : List (List Char)) :
    filterRequirements D M = M.filter (fun req => ! D.contains (specLeadingName req)) := by
  unfold filterRequirements
  apply List.filter_congr
  intro req _
  unfold keepReq reqName specLeadingName
  rw [jsSplitDelim_headD]
  simp

theorem splitLFAux_no_newline : ∀ (l acc : List Char), '\n' ∉ l →
    splitLFAux l acc = [acc.reverse ++ l]
  | [], acc, _ => by simp [splitLFAux]
  | c :: rest, acc, h => by
    have hc : ¬ c = '\n' := fun e => h (by simp [e])
    have hr : '\n' ∉ rest := fun m => h (by simp [m])
    rw [splitLFAux.eq_def]
    simp only [if_neg hc]
    rw [splitLFAux_no_newline rest (c :: acc) hr]
    simp

theorem splitLFAux_chunk : ∀ (l acc t : List Char), '\n' ∉ l →
    splitLFAux (l ++ '\n' :: t) acc = (acc.reverse ++ l) :: splitLFAux t []
  | [], acc, t, _ => by simp [splitLFAux]
  | c :: rest, acc, t, h => by
    have hc : ¬ c = '\n' := fun e => h (by simp [e])
    have hr : '\n' ∉ rest := fun m => h (by simp [m])
    rw [List.cons_append, splitLFAux.eq_def]
    simp only [if_neg hc]
    rw [splitLFAux_chunk rest (c :: acc) t hr]
    simp

theorem splitLF_joinLF : ∀ (ls : List (List Char)), ls ≠ [] →
    (∀ l ∈ ls, '\n' ∉ l) → splitLF (joinLF ls) = ls
  | [], hne, _ => absurd rfl hne
  | [l], _, h => by
    rw [joinLF]
    unfold splitLF
    rw [splitLFAux_no_newline l [] (h l (by simp))]
    simp
  | l :: l2 :: ls, _, h => by
    rw [joinLF]
    unfold splitLF
    rw [splitLFAux_chunk l [] (joinLF (l2 :: ls)) (h l (by simp))]
    have ih : splitLF (joinLF (l2 :: ls)) = l2 :: ls :=
      splitLF_joinLF (l2 :: ls) (by simp) (fun x hx => h x (by simp [hx]))
    unfold splitLF at ih
    rw [ih]
    simp

theorem stripTrailingCR_eq_self (acc : List Char) (h : acc.head? ≠ some '\r') :
    stripTrailingCR acc = acc := by
  unfold stripTrailingCR
  exact if_neg h

theorem splitCRLFAux_no_newline : ∀ (l acc : List Char), '\n' ∉ l →
    splitCRLFAux l acc = [acc.reverse ++ l]
  | [], acc, _ => by simp [splitCRLFAux]
  | c :: rest, acc, h => by
    have hc : ¬ c = '\n' := fun e => h (by simp [e])
    have hr : '\n' ∉ rest := fun m => h (by simp [m])
    rw [splitCRLFAux.eq_def]
    simp only [if_neg hc]
    rw [splitCRLFAux_no_newline rest (c :: acc) hr]
    simp

theorem splitCRLFAux_chunk : ∀ (l acc t : List Char), '\n' ∉ l →
    (acc.reverse ++ l).getLast? ≠ some '\r' →
    splitCRLFAux (l ++ '\n' :: t) acc = (acc.reverse ++ l) :: splitCRLFAux t []
  | [], acc, t, _, hcr => by
    rw [List.nil_append, splitCRLFAux.eq_def]
    simp only [if_pos rfl]
    rw [stripTrailingCR_eq_self acc (by simpa using hcr)]
    simp
  | c :: rest, acc, t, h, hcr => by
    have hc : ¬ c = '\n' := fun e => h (by simp [e])
    have hr : '\n' ∉ rest := fun m => h (by simp [m])
    have he : (c :: acc).reverse ++ rest = acc.reverse ++ c :: rest := by simp
    rw [List.cons_append, splitCRLFAux.eq_def]
    simp only [if_neg hc]
    rw [splitCRLFAux_chunk rest (c :: acc) t hr (by rw [he]; exact hcr), he]

theorem mem_stripTrailingCR {x : Char} {acc : List Char} (h : x ∈ stripTrailingCR acc) :
    x ∈ acc := by
  unfold stripTrailingCR at h
  by_cases hh : acc.head? = some '\r'
  · rw [if_pos hh] at h
    exact List.mem_of_mem_tail h
  · rwa [if_neg hh] at h

theorem mem_splitCRLFAux_no_newline : ∀ (s acc l : List Char), '\n' ∉ acc →
    l ∈ splitCRLFAux s acc → '\n' ∉ l
  | [], acc, l, hacc, hmem => by
    simp only [splitCRLFAux] at hmem
    rcases List.mem_singleton.mp hmem with rfl
    simpa using hacc
  | c :: rest, acc, l, hacc, hmem => by
    by_cases hc : c = '\n'
    · rw [splitCRLFAux.eq_def] at hmem
      simp only [if_pos hc] at hmem
      rcases List.mem_cons.mp hmem with rfl | hmem2
      · intro hin
        exact hacc (mem_stripTrailingCR (List.mem_reverse.mp hin))
      · exact mem_splitCRLFAux_no_newline rest [] l (by simp) hmem2
    · rw [splitCRLFAux.eq_def] at hmem
      simp only [if_neg hc] at hmem
      refine mem_splitCRLFAux_no_newline rest (c :: acc) l ?_ hmem
      intro hin
      rcases List.mem_cons.mp hin with he | hin2
      · exact hc he.symm
      · exact hacc hin2

theorem splitLinesCRLF_joinLF : ∀ (ls : List (List Char)), ls ≠ [] →
    (∀ l ∈ ls, '\n' ∉ l ∧ l.getLast? ≠ some '\r') →
    splitLinesCRLF (joinLF ls) = ls
  | [], hne, _ => absurd rfl hne
  | [l], _, h => by
    rw [joinLF]
    unfold splitLinesCRLF
    rw [splitCRLFAux_no_newline l [] (h l (by simp)).1]
    simp
  | l :: l2 :: ls, _, h => by
    rw [joinLF]
    unfold splitLinesCRLF
    rw [splitCRLFAux_chunk l [] (joinLF (l2 :: ls)) (h l (by simp)).1
      (by simpa using (h l (by simp)).2)]
    have ih : splitLinesCRLF (joinLF (l2 :: ls)) = l2 :: ls :=
      splitLinesCRLF_joinLF (l2 :: ls) (by simp) (fun x hx => h x (by simp [hx]))
    unfold splitLinesCRLF at ih
    rw [ih]
    simp

/-- C6 counterexample: with an empty denied set no line of the manifest
with contents a CR LF b is filtered out, yet the written destination is a
LF b, not the source: the CRLF line terminator is not preserved. -/
theorem c6_counterexample :
    filterRequirements [] (splitLinesCRLF ("a\r\nb".data)) = splitLinesCRLF ("a\r\nb".data) ∧
    generateRequirementsFile [] ("a\r\nb".data) ≠ "a\r\nb".data := by
  constructor
  · rfl
  · decide

/-- C6 amended: the destination is the surviving lines joined with the LF
separator; each surviving line is re-emitted with its content, including
its leading and trailing whitespace, unchanged — when at least one line
survives, splitting the destination on LF returns exactly the surviving
lines — but line terminators are normalized to LF rather than preserved. -/
theorem c6_amended (D : List (List Char)) (src : List Char) :
    generateRequirementsFile D src = joinLF (filterRequirements D (splitLinesCRLF src)) ∧
    (filterRequirements D (splitLinesCRLF src) ≠ [] →
      splitLF (generateRequirementsFile D src) = filterRequirements D (splitLinesCRLF src)) := by
  refine ⟨rfl, fun hne => ?_⟩
  have hnl : ∀ l ∈ filterRequirements D (splitLinesCRLF src), '\n' ∉ l := by
    intro l hl
    exact mem_splitCRLFAux_no_newline src [] l (by simp) (List.mem_of_mem_filter hl)
  exact splitLF_joinLF _ hne hnl

/-- C6 witness: filtering boto3 out of a three-line manifest leaves the
other two lines, with the surrounding whitespace of the first intact. -/
theorem c6_witness :
    splitLF (generateRequirementsFile [("boto3".data)] (" numpy \nboto3\nsimplejson".data)) =
      filterRequirements [("boto3".data)] (splitLinesCRLF (" numpy \nboto3\nsimplejson".data)) :=
  (c6_amended [("boto3".data)] (" numpy \nboto3\nsimplejson".data)).2 (by decide)

theorem filterRequirements_idem (D M : List (List Char)) :
    filterRequirements D (filterRequirements D M) = filterRequirements D M := by
  unfold filterRequirements
  rw [List.filter_filter]
  apply List.filter_congr
  intro x _
  exact Bool.and_self (keepReq D x)

/-- C8 counterexample: on the manifest a CR CR LF b with an empty denied
set, the first pass writes a CR LF b and the second pass writes a LF b:
filtering the already-filtered manifest changes it again. -/
theorem c8_counterexample :
    generateRequirementsFile [] (generateRequirementsFile [] ("a\r\r\nb".data)) ≠
      generateRequirementsFile [] ("a\r\r\nb".data) := by
  decide

/-- C8 amended: filtering is idempotent at the line level for every
manifest and denied set, and idempotent at the file level for every
manifest none of whose lines ends in a carriage return (a CR-final line
is re-tokenized when the written file is read back, which is what the
counterexample exploits). -/
theorem c8_amended (D M : List (List Char)) (src : List Char)
    (h : ∀ l ∈ splitLinesCRLF src, l.getLast? ≠ some '\r') :
    filterRequirements D (filterRequirements D M) = filterRequirements D M ∧
    generateRequirementsFile D (generateRequirementsFile D src) =
      generateRequirementsFile D src := by
  refine ⟨filterRequirements_idem D M, ?_⟩
  by_cases hne : filterRequirements D (splitLinesCRLF src) = []
  · have h1 : generateRequirementsFile D src = [] := by
      unfold generateRequirementsFile
      rw [hne]
      rfl
    rw [h1]
    show joinLF (filterRequirements D (splitLinesCRLF [])) = []
    rw [show splitLinesCRLF ([] : List Char) = [[]] from rfl]
    unfold filterRequirements
    cases hk : keepReq D [] with
    | true => simp [List.filter_cons, hk, joinLF]
    | false => simp [List.filter_cons, hk, joinLF]
  · have hsplit : splitLinesCRLF (generateRequirementsFile D src) =
        filterRequirements D (splitLinesCRLF src) := by
      show splitLinesCRLF (joinLF (filterRequirements D (splitLinesCRLF src))) = _
      apply splitLinesCRLF_joinLF _ hne
      intro l hl
      exact ⟨mem_splitCRLFAux_no_newline src [] l (by simp) (List.mem_of_mem_filter hl),
        h l (List.mem_of_mem_filter hl)⟩
    show joinLF (filterRequirements D (splitLinesCRLF (generateRequirementsFile D src))) = _
    rw [hsplit, filterRequirements_idem]
    rfl

/-- C8 witness: a LF-terminated two-line manifest with one denied name is
a fixed point of a second filtering, at the line level and file level. -/
theorem jsReplaceFirst_not_mem (sep repl : Char) : ∀ (p : List Char), sep ∉ p →
    jsReplaceFirst sep repl p = p
  | [], _ => rfl
  | c :: rest, h => by
    have hc : ¬ c = sep := fun e => h (by simp [e])
    rw [jsReplaceFirst.eq_def]
    simp only [if_neg hc]
    rw [jsReplaceFirst_not_mem sep repl rest (fun m => h (by simp [m]))]

theorem jsReplaceFirst_first (sep repl : Char) : ∀ (a b : List Char), sep ∉ a →
    jsReplaceFirst sep repl (a ++ sep :: b) = a ++ repl :: b
  | [], b, _ => by
    rw [List.nil_append, jsReplaceFirst.eq_def]
    simp
  | c :: a, b, h => by
    have hc : ¬ c = sep := fun e => h (by simp [e])
    rw [List.cons_append, jsReplaceFirst.eq_def]
    simp only [if_neg hc]
    rw [jsReplaceFirst_first sep repl a b (fun m => h (by simp [m]))]
    rfl

/-- C5: dockerPathForWin returns its path argument unchanged unless the
platform is win32 (the only platform with a non-POSIX separator) and
container mode is on, in which case exactly the first backslash is
rewritten to a forward slash and every later occurrence is left
intact. -/
theorem c5_path_translation (platform : String) (dz : Bool) (p a b : List Char) :
    (¬ (platform = "win32" ∧ dz = true) → dockerPathForWin platform dz p = p) ∧
    ('\\' ∉ p → dockerPathForWin platform dz p = p) ∧
    (platform = "win32" → dz = true → '\\' ∉ a →
      dockerPathForWin platform dz (a ++ '\\' :: b) = a ++ '/' :: b) := by
  refine ⟨?_, ?_, ?_⟩
  · intro h
    by_cases hp : platform = "win32"
    · cases dz with
      | false => simp [dockerPathForWin]
      | true => exact absurd ⟨hp, rfl⟩ h
    · simp [dockerPathForWin, hp]
  · intro h
    unfold dockerPathForWin
    split
    · exact jsReplaceFirst_not_mem '\\' '/' p h
    · rfl
  · intro hp hd hna
    have hcond : (decide (platform = "win32") && dz) = true := by
      rw [hp, hd]
      decide
    unfold dockerPathForWin
    rw [if_pos hcond]
    exact jsReplaceFirst_first '\\' '/' a b hna

/-- C5 witness: the example from the spec, with only the first backslash
rewritten. -/
theorem c5_witness :
    dockerPathForWin "win32" true ("C:\\proj\\reqs.txt".data) = ("C:/proj\\reqs.txt".data) := by
  have h := (c5_path_translation "win32" true ("C:\\proj\\reqs.txt".data)
    ("C:".data) ("proj\\reqs.txt".data)).2.2 rfl rfl (by decide)
  have e : ("C:".data ++ '\\' :: "proj\\reqs.txt".data) = "C:\\proj\\reqs.txt".data := by decide
  rw [e] at h
  rw [h]
  decide

/-- C3: the outcome of executeCommand is toolMissing exactly when
spawnSync reported a start failure whose code is ENOENT; the message then
names the container engine when dockerizePip is on, and otherwise names
the configured pythonBin binary and the pythonBin option; a start failure
with any other code is rethrown as spawnError with the failure value
unchanged. -/
theorem c3_tool_missing_classification (dz : Bool) (pb : String) (res : SpawnResult) :
    ((∃ m, classifyExecution dz pb res = ExecOutcome.toolMissing m) ↔
      (∃ e, res.error = some e ∧ e.code = some "ENOENT")) ∧
    (∀ e, res.error = some e → e.code = some "ENOENT" →
      classifyExecution dz pb res =
        ExecOutcome.toolMissing (if dz then dockerNotFoundMsg else pythonNotFoundMsg pb)) ∧
    (∀ e, res.error = some e → e.code ≠ some "ENOENT" →
      classifyExecution dz pb res = ExecOutcome.spawnError e) := by
  obtain ⟨err, status, out, errout⟩ := res
  cases err with
  | none =>
    refine ⟨⟨?_, ?_⟩, ?_, ?_⟩
    · rintro ⟨m, hm⟩
      by_cases hs : status = some 0 <;> simp [classifyExecution, hs] at hm
    · rintro ⟨e, he, -⟩
      cases he
    · intro e he
      cases he
    · intro e he
      cases he
  | some e0 =>
    by_cases hc : e0.code = some "ENOENT"
    · refine ⟨⟨fun _ => ⟨e0, rfl, hc⟩, fun _ => ?_⟩, ?_, ?_⟩
      · cases dz with
        | true => exact ⟨dockerNotFoundMsg, by simp [classifyExecution, hc]⟩
        | false => exact ⟨pythonNotFoundMsg pb, by simp [classifyExecution, hc]⟩
      · intro e he heq
        cases Option.some.inj he
        cases dz <;> simp [classifyExecution, hc]
      · intro e he heq
        cases Option.some.inj he
        exact absurd hc heq
    · refine ⟨⟨?_, ?_⟩, ?_, ?_⟩
      · rintro ⟨m, hm⟩
        simp [classifyExecution, hc] at hm
      · rintro ⟨e, he, hcode⟩
        cases Option.some.inj he
        exact absurd hcode hc
      · intro e he hcode
        cases Option.some.inj he
        exact absurd hcode hc
      · intro e he hcode
        cases Option.some.inj he
        simp [classifyExecution, hc]

/-- C3 witness: an ENOENT start failure yields toolMissing naming
pythonBin natively and naming docker in container mode; an EACCES start
failure is propagated as spawnError unchanged. -/
theorem c3_witness :
    classifyExecution false "python" ⟨some ⟨some "ENOENT", "spawn failed"⟩, none, "", ""⟩ =
        ExecOutcome.toolMissing (pythonNotFoundMsg "python") ∧
    classifyExecution true "python" ⟨some ⟨some "ENOENT", "spawn failed"⟩, none, "", ""⟩ =
        ExecOutcome.toolMissing dockerNotFoundMsg ∧
    classifyExecution false "python" ⟨some ⟨some "EACCES", "denied"⟩, none, "", ""⟩ =
        ExecOutcome.spawnError ⟨some "EACCES", "denied"⟩ :=
  ⟨(c3_tool_missing_classification false "python" _).2.1 ⟨some "ENOENT", "spawn failed"⟩ rfl rfl,
    (c3_tool_missing_classification true "python" _).2.1 ⟨some "ENOENT", "spawn failed"⟩ rfl rfl,
    (c3_tool_missing_classification false "python" _).2.2 ⟨some "EACCES", "denied"⟩ rfl
      (by decide)⟩

/-- C4: whenever the process started (no spawn error) and exited with a
status other than zero, executeCommand throws an error whose message is
the captured standard error verbatim. -/
theorem c4_nonzero_exit (dz : Bool) (pb : String) (res : SpawnResult) (k : Int)
    (herr : res.error = none) (hst : res.status = some k) (hk : k ≠ 0) :
    classifyExecution dz pb res = ExecOutcome.nonZeroExit res.stderr := by
  obtain ⟨err, status, out, errout⟩ := res
  cases herr
  cases hst
  simp [classifyExecution, hk]

/-- C4 witness: exit status 1 with standard error conflict yields an
error whose message equals conflict. -/
theorem c4_witness :
    classifyExecution false "python" ⟨none, some 1, "", "conflict"⟩ =
      ExecOutcome.nonZeroExit "conflict" :=
  c4_nonzero_exit false "python" ⟨none, some 1, "", "conflict"⟩ 1 rfl rfl (by decide)

theorem c8_witness :
    filterRequirements [("b".data)] (filterRequirements [("b".data)] (["a".data, "b".data])) =
        filterRequirements [("b".data)] (["a".data, "b".data]) ∧
    generateRequirementsFile [("b".data)] (generateRequirementsFile [("b".data)] ("a\nb".data)) =
      generateRequirementsFile [("b".data)] ("a\nb".data) :=
  c8_amended [("b".data)] (["a".data, "b".data]) ("a\nb".data) (by decide)

/-- C7 counterexample: darwin is a POSIX-like host, yet in container mode
the code appends the id resolved by the ownership helper (42 here), not
the invoking numeric user id (1000): the claimed behavior for every
POSIX-like host fails on every POSIX-like host other than linux. -/
theorem c7_counterexample :
    posixLikePlatform "darwin" = true ∧
    executeCmdLine sampleDarwinEnv sampleDockerOpts "svc" ["pip"] false =
      ("docker", ["run", "--rm", "-v", "svc:/var/task:z", "-u", "42", "img", "pip"]) ∧
    toString sampleDarwinEnv.uid = "1000" ∧
    "1000" ∉ (executeCmdLine sampleDarwinEnv sampleDockerOpts "svc" ["pip"] false).2 := by
  refine ⟨rfl, rfl, rfl, ?_⟩
  decide

/-- C7 amended: in container mode, on a linux host the container is run
with a -u pair carrying the invoking numeric user id, and on every other
host (POSIX-like or not) the id after -u is instead the one resolved by
the getDockerUid helper inspecting the bind-mounted directory. -/
theorem c7_user_mapping (env : DockerEnv) (opts : PipOptions) (sp : String)
    (ca : List String) (sh : Bool) (hdz : opts.dockerizePip = true) :
    (env.platform = "linux" →
      executeCmdLine env opts sp ca sh =
        ("docker",
          dockerBaseOptions env opts (env.getBindPath sp) ++ ["-u", toString env.uid] ++
            dockerTailOptions env opts ca sh)) ∧
    (env.platform ≠ "linux" →
      executeCmdLine env opts sp ca sh =
        ("docker",
          dockerBaseOptions env opts (env.getBindPath sp) ++
            ["-u", env.getDockerUid (env.getBindPath sp)] ++
            dockerTailOptions env opts ca sh)) := by
  constructor <;> intro h <;> simp [executeCmdLine, hdz, dockerUserOptions, h]

/-- C7 witness: on a linux host with user id 1000 the -u pair carries
1000. -/
theorem c7_witness :
    executeCmdLine sampleLinuxEnv sampleDockerOpts "svc" ["pip"] false =
      ("docker", ["run", "--rm", "-v", "svc:/var/task:z", "-u", "1000", "img", "pip"]) := by
  have h := (c7_user_mapping sampleLinuxEnv sampleDockerOpts "svc" ["pip"] false rfl).1 rfl
  rw [h]
  rfl

theorem installAllIndividually_calls : ∀ (fs : List FunctionUnit) (done : List String),
    (installAllIndividually fs done).2 = firstOccur (unitIds fs) done
  | [], _ => rfl
  | f :: fs, done => by
    rw [installAllIndividually.eq_def]
    show _ = firstOccur (moduleId f :: unitIds fs) done
    rw [firstOccur.eq_def]
    by_cases h : done.contains ((setDefaultModule f).module.getD "") = true
    · have h2 : done.contains (moduleId f) = true := h
      simp only [if_pos h, if_pos h2]
      exact installAllIndividually_calls fs done
    · have h2 : ¬ done.contains (moduleId f) = true := h
      simp only [if_neg h, if_neg h2]
      exact congrArg (moduleId f :: ·)
        (installAllIndividually_calls fs (done ++ [moduleId f]))

theorem installAllIndividually_units : ∀ (fs : List FunctionUnit) (done : List String),
    (installAllIndividually fs done).1 = fs.map setDefaultModule
  | [], _ => rfl
  | f :: fs, done => by
    rw [installAllIndividually.eq_def, List.map_cons]
    by_cases h : done.contains ((setDefaultModule f).module.getD "") = true
    · simp only [if_pos h]
      show setDefaultModule f :: (installAllIndividually fs done).1 = _
      rw [installAllIndividually_units fs done]
    · simp only [if_neg h]
      show setDefaultModule f :: (installAllIndividually fs _).1 = _
      rw [installAllIndividually_units fs]

theorem firstOccur_length : ∀ (ms done : List String),
    (firstOccur ms done).length = (ms.toFinset \ done.toFinset).card
  | [], done => by simp [firstOccur]
  | m :: ms, done => by
    rw [firstOccur.eq_def, List.toFinset_cons]
    by_cases h : done.contains m = true
    · have hm : m ∈ done.toFinset := List.mem_toFinset.mpr (List.elem_iff.mp h)
      simp only [if_pos h]
      rw [firstOccur_length ms done, Finset.insert_sdiff_of_mem _ hm]
    · have hm : m ∉ done.toFinset := fun hin =>
        h (List.elem_iff.mpr (List.mem_toFinset.mp hin))
      simp only [if_neg h]
      show (firstOccur ms (done ++ [m])).length + 1 = _
      rw [firstOccur_length ms (done ++ [m]), Finset.insert_sdiff_of_not_mem _ hm]
      have he : (done ++ [m]).toFinset = insert m done.toFinset := by
        rw [List.toFinset_append]
        show done.toFinset ∪ {m} = insert m done.toFinset
        rw [Finset.union_comm, ← Finset.insert_eq]
      rw [he, Finset.sdiff_insert]
      by_cases hms : m ∈ ms.toFinset \ done.toFinset
      · rw [Finset.insert_eq_self.mpr hms]
        have hpos : 0 < (ms.toFinset \ done.toFinset).card := Finset.card_pos.mpr ⟨m, hms⟩
        rw [Finset.card_erase_of_mem hms]
        omega
      · rw [Finset.erase_eq_of_not_mem hms, Finset.card_insert_of_not_mem hms]

theorem distinct_id_count (ms : List String) (M : Nat) (hM : 1 ≤ M)
    (hdot : (ms.filter (fun m => m == ".")).length = M)
    (hnodup : (ms.filter (fun m => !(m == "."))).Nodup) :
    ms.toFinset.card = ms.length - M + 1 := by
  have hlen : ms.length = M + (ms.filter (fun m => !(m == "."))).length := by
    have := List.length_eq_length_filter_add (l := ms) (fun m => m == ".")
    omega
  have hdotmem : ("." : String) ∈ ms := by
    have hne : (ms.filter (fun m => m == ".")).length ≠ 0 := by omega
    rcases List.exists_mem_of_length_pos (Nat.pos_of_ne_zero hne) with ⟨x, hx⟩
    have hx2 := List.mem_filter.mp hx
    have : x = "." := by simpa using hx2.2
    exact this ▸ hx2.1
  have hset : ms.toFinset = insert "." (ms.filter (fun m => !(m == "."))).toFinset := by
    ext x
    simp only [List.mem_toFinset, Finset.mem_insert, List.mem_filter]
    constructor
    · intro hx
      by_cases hd : x = "."
      · exact Or.inl hd
      · exact Or.inr ⟨hx, by simpa using hd⟩
    · rintro (rfl | ⟨hx, -⟩)
      · exact hdotmem
      · exact hx
  have hnot : ("." : String) ∉ (ms.filter (fun m => !(m == "."))).toFinset := by
    intro hin
    have := (List.mem_filter.mp (List.mem_toFinset.mp hin)).2
    simp at this
  rw [hset, Finset.card_insert_of_not_mem hnot, List.toFinset_card_of_nodup hnodup]
  omega

/-- C2: in individually mode, installRequirements is invoked once per
first occurrence of a module identifier (later units whose identifier,
compared by string equality, is already recorded are skipped), and for N
units of which M share the dot identifier (explicitly or by defaulting)
while the rest carry pairwise-distinct identifiers, it is invoked exactly
N - M + 1 times. -/
theorem c2_dedup (fs : List FunctionUnit) (M : Nat) (hM : 1 ≤ M)
    (hdot : ((unitIds fs).filter (fun m => m == ".")).length = M)
    (hnodup : ((unitIds fs).filter (fun m => !(m == "."))).Nodup) :
    (installAllIndividually fs []).2 = firstOccur (unitIds fs) [] ∧
    (installAllIndividually fs []).2.length = fs.length - M + 1 := by
  refine ⟨installAllIndividually_calls fs [], ?_⟩
  rw [installAllIndividually_calls fs [], firstOccur_length]
  simp only [List.toFinset_nil, Finset.sdiff_empty]
  rw [distinct_id_count (unitIds fs) M hM hdot hnodup]
  simp [unitIds]

/-- C2 witness: three units — one with no module, one with module dot,
one with module svc2 — trigger exactly two installer invocations. -/
theorem c2_witness :
    (installAllIndividually
        [⟨none, none, none, none⟩, ⟨some ".", none, none, none⟩,
          ⟨some "svc2", none, none, none⟩] []).2 =
      firstOccur (unitIds
        [⟨none, none, none, none⟩, ⟨some ".", none, none, none⟩,
          ⟨some "svc2", none, none, none⟩]) [] ∧
    (installAllIndividually
        [⟨none, none, none, none⟩, ⟨some ".", none, none, none⟩,
          ⟨some "svc2", none, none, none⟩] []).2.length = 3 - 2 + 1 :=
  c2_dedup
    [⟨none, none, none, none⟩, ⟨some ".", none, none, none⟩, ⟨some "svc2", none, none, none⟩]
    2 (by decide) (by decide) (by decide)

/-- C9 counterexample: a unit passed in with no module field does not
come out of the run unchanged — its module field has been set to the dot
string by the orchestration. -/
theorem c9_counterexample :
    (installAllIndividually [⟨none, none, none, none⟩] []).1 ≠
      [⟨none, none, none, none⟩] := by
  decide

/-- C9 amended: the orchestration mutates each unit exactly by module
defaulting: after the run the units are their setDefaultModule images, a
unit whose module field is neither absent nor empty is unchanged, a unit
with an absent or empty module field gets module set to dot, and the
vendor and post-install hook fields are never modified. -/
theorem c9_units_mutation (fs : List FunctionUnit) (done : List String) (f : FunctionUnit) :
    (installAllIndividually fs done).1 = fs.map setDefaultModule ∧
    (moduleFalsy f.module = false → setDefaultModule f = f) ∧
    (moduleFalsy f.module = true → setDefaultModule f = { f with module := some "." }) ∧
    (setDefaultModule f).vendor = f.vendor ∧
    (setDefaultModule f).pipPostInstallScript = f.pipPostInstallScript ∧
    (setDefaultModule f).pipPostInstallArgs = f.pipPostInstallArgs := by
  refine ⟨installAllIndividually_units fs done, ?_, ?_, ?_, ?_, ?_⟩ <;>
    by_cases h : moduleFalsy f.module = true <;>
      simp [setDefaultModule, h]

/-- C9 witness: a unit with explicit module and vendor fields passes
through the run unchanged. -/
theorem c9_witness :
    (installAllIndividually [⟨some "m", some "v", none, none⟩] []).1 =
        [⟨some "m", some "v", none, none⟩].map setDefaultModule ∧
    setDefaultModule ⟨some "m", some "v", none, none⟩ = ⟨some "m", some "v", none, none⟩ :=
  ⟨(c9_units_mutation [⟨some "m", some "v", none, none⟩] []
      ⟨some "m", some "v", none, none⟩).1,
    (c9_units_mutation [⟨some "m", some "v", none, none⟩] []
      ⟨some "m", some "v", none, none⟩).2.1 rfl⟩

/-- C10: the vector runPostInstallScript hands to executeCommand is the
hook command, then the requirements folder under the target folder, then
the hook arguments in order (empty when absent); natively the executor
therefore spawns the hook command with the requirements folder as its
first argument. -/
theorem c10_hook_arguments (env : DockerEnv) (opts : PipOptions) (sp : String)
    (c : String) (a : Option (List String)) (t : String)
    (h : opts.dockerizePip = false) :
    runPostInstallScriptCmd c a t = c :: pathJoin t "requirements" :: a.getD [] ∧
    executeCmdLine env opts sp (runPostInstallScriptCmd c a t) true =
      (c, pathJoin t "requirements" :: a.getD []) := by
  constructor
  · rfl
  · simp [executeCmdLine, h, runPostInstallScriptCmd]

/-- C10 witness: a hook with no extra arguments receives exactly the
requirements folder. -/
theorem c10_witness :
    runPostInstallScriptCmd "hook" none ".serverless" =
        "hook" :: pathJoin ".serverless" "requirements" :: [] ∧
    executeCmdLine sampleLinuxEnv sampleNativeOpts "svc"
        (runPostInstallScriptCmd "hook" none ".serverless") true =
      ("hook", pathJoin ".serverless" "requirements" :: []) :=
  c10_hook_arguments sampleLinuxEnv sampleNativeOpts "svc" "hook" none ".serverless" rfl

end PipSpec
